import Mathlib

/-!
# Verification of the Salesforce CMS MCP server core

Shallow embedding of the core logic of the repository:

* `validateUUID` (index.js, `validateUUID`): the fixed regex
  `^[0-9a-f]{8}-[0-9a-f]{4}-[0-9a-f]{4}-[0-9a-f]{4}-[0-9a-f]{12}$/i`
  rendered as an executable matcher over the character list.
* `validateEmailStructure` (index.js): the recursive structural validator
  for email block trees.
* The clearance-token registry (`clearanceTokens` set, `generateClearanceToken`,
  the 30-minute `setTimeout` eviction, and the gate inside the
  `create_cms_content` tool handler), modelled as an explicit event semantics.
* `ensureAuthenticated` / `authenticate` session-refresh logic and
  `getWorkspaceId` channel resolution from cms-client.js (the version that
  tracks `tokenExpiry` and `channelId`).

JavaScript `undefined`/falsy fields are modelled with `Option` plus explicit
falsy tests (`none` and `some ""` are falsy for strings, `none` and `some 0`
for numbers), and machine time is a `Nat` count of milliseconds.
-/

/-! ## UUID validation (`validateUUID`) -/

/-- A hexadecimal digit as accepted by the character class `[0-9a-f]` under
the `/i` flag: digits, lowercase and uppercase `a`-`f`. -/
def isHexDigit (c : Char) : Bool :=
  (decide ('0' ≤ c) && decide (c ≤ '9'))
    || (decide ('a' ≤ c) && decide (c ≤ 'f'))
    || (decide ('A' ≤ c) && decide (c ≤ 'F'))

/-- Consume exactly `n` hex digits from the front of the character list,
returning the rest, like the bounded repetition `[0-9a-f]{n}`. -/
def matchHex : Nat → List Char → Option (List Char)
  | 0, cs => some cs
  | _ + 1, [] => none
  | n + 1, c :: cs => if isHexDigit c then matchHex n cs else none

/-- Consume a literal dash. -/
def matchDash : List Char → Option (List Char)
  | '-' :: cs => some cs
  | _ => none

/-- `validateUUID(id)` from index.js: test of the anchored regex
`^[0-9a-f]{8}-[0-9a-f]{4}-[0-9a-f]{4}-[0-9a-f]{4}-[0-9a-f]{12}$` with the
case-insensitive flag, run on the string's characters. -/
def validateUUID (s : String) : Bool :=
  match (((((((((matchHex 8 s.data).bind matchDash).bind
      (matchHex 4)).bind matchDash).bind
      (matchHex 4)).bind matchDash).bind
      (matchHex 4)).bind matchDash).bind
      (matchHex 12)) with
  | some [] => true
  | _ => false

/-- The 8-4-4-4-12 hexadecimal pattern, stated declaratively (the spec's
wording of the property): five all-hex groups of the given lengths joined
by dashes make up the whole string. -/
def IsUUIDPattern (s : String) : Prop :=
  ∃ g1 g2 g3 g4 g5 : List Char,
    s.data = g1 ++ '-' :: (g2 ++ '-' :: (g3 ++ '-' :: (g4 ++ '-' :: g5))) ∧
    g1.length = 8 ∧ g2.length = 4 ∧ g3.length = 4 ∧ g4.length = 4 ∧
    g5.length = 12 ∧
    (∀ c ∈ g1, isHexDigit c = true) ∧ (∀ c ∈ g2, isHexDigit c = true) ∧
    (∀ c ∈ g3, isHexDigit c = true) ∧ (∀ c ∈ g4, isHexDigit c = true) ∧
    (∀ c ∈ g5, isHexDigit c = true)

theorem matchHex_eq_some_iff (n : Nat) (cs rest : List Char) :
    matchHex n cs = some rest ↔
      ∃ g : List Char, cs = g ++ rest ∧ g.length = n ∧
        ∀ c ∈ g, isHexDigit c = true := by
  induction n generalizing cs with
  | zero =>
    simp only [matchHex, Option.some_inj]
    constructor
    · rintro rfl
      exact ⟨[], by simp⟩
    · rintro ⟨g, rfl, hg, _⟩
      simp [List.length_eq_zero.mp hg]
  | succ n ih =>
    cases cs with
    | nil =>
      simp only [matchHex]
      constructor
      · intro h; exact absurd h (by simp)
      · rintro ⟨g, hcs, hg, _⟩
        exfalso
        have := congrArg List.length hcs
        simp [hg] at this
        omega
    | cons c cs =>
      simp only [matchHex]
      by_cases hc : isHexDigit c = true
      · rw [if_pos hc, ih]
        constructor
        · rintro ⟨g, rfl, hg, hhex⟩
          refine ⟨c :: g, rfl, by simp [hg], ?_⟩
          intro x hx
          rcases List.mem_cons.mp hx with rfl | hx
          · exact hc
          · exact hhex x hx
        · rintro ⟨g, hcs, hg, hhex⟩
          cases g with
          | nil => simp at hg
          | cons g0 g =>
            simp only [List.cons_append, List.cons.injEq] at hcs
            obtain ⟨rfl, rfl⟩ := hcs
            refine ⟨g, rfl, by simpa using hg, ?_⟩
            intro x hx; exact hhex x (List.mem_cons_of_mem _ hx)
      · rw [if_neg hc]
        constructor
        · intro h; exact absurd h (by simp)
        · rintro ⟨g, hcs, hg, hhex⟩
          cases g with
          | nil => simp at hg
          | cons g0 g =>
            simp only [List.cons_append, List.cons.injEq] at hcs
            exact absurd (hcs.1 ▸ hhex g0 (by simp)) hc

theorem matchDash_eq_some_iff (cs rest : List Char) :
    matchDash cs = some rest ↔ cs = '-' :: rest := by
  cases cs with
  | nil => simp [matchDash]
  | cons c cs =>
    by_cases h : c = '-'
    · subst h; simp [matchDash]
    · constructor
      · intro hm
        exfalso
        have : matchDash (c :: cs) = none := by
          unfold matchDash
          split
          · rename_i heq
            injection heq with h1 _
            exact absurd h1 h
          · rfl
        rw [this] at hm; exact absurd hm (by simp)
      · intro heq
        injection heq with h1 _
        exact absurd h1 h

/-- C9: `validateUUID(id)` is true exactly for strings of the 8-4-4-4-12
case-insensitive hexadecimal form, and false for every other string. -/
theorem validateUUID_iff_pattern (s : String) :
    validateUUID s = true ↔ IsUUIDPattern s := by
  unfold validateUUID
  constructor
  · intro h
    split at h
    · rename_i heq
      rcases Option.bind_eq_some.mp heq with ⟨r8, hC4, hm12⟩
      rcases Option.bind_eq_some.mp hC4 with ⟨r7, hC3h, hd4⟩
      rcases Option.bind_eq_some.mp hC3h with ⟨r6, hC3, hm4c⟩
      rcases Option.bind_eq_some.mp hC3 with ⟨r5, hC2h, hd3⟩
      rcases Option.bind_eq_some.mp hC2h with ⟨r4, hC2, hm4b⟩
      rcases Option.bind_eq_some.mp hC2 with ⟨r3, hC1h, hd2⟩
      rcases Option.bind_eq_some.mp hC1h with ⟨r2, hC1, hm4a⟩
      rcases Option.bind_eq_some.mp hC1 with ⟨r1, hH8, hd1⟩
      rcases (matchHex_eq_some_iff _ _ _).mp hH8 with ⟨gA, hsd, hlA, hxA⟩
      have hr1 := (matchDash_eq_some_iff _ _).mp hd1
      rcases (matchHex_eq_some_iff _ _ _).mp hm4a with ⟨gB, hr2, hlB, hxB⟩
      have hr3 := (matchDash_eq_some_iff _ _).mp hd2
      rcases (matchHex_eq_some_iff _ _ _).mp hm4b with ⟨gC, hr4, hlC, hxC⟩
      have hr5 := (matchDash_eq_some_iff _ _).mp hd3
      rcases (matchHex_eq_some_iff _ _ _).mp hm4c with ⟨gD, hr6, hlD, hxD⟩
      have hr7 := (matchDash_eq_some_iff _ _).mp hd4
      rcases (matchHex_eq_some_iff _ _ _).mp hm12 with ⟨gE, hr8, hlE, hxE⟩
      refine ⟨gA, gB, gC, gD, gE, ?_, hlA, hlB, hlC, hlD, hlE,
        hxA, hxB, hxC, hxD, hxE⟩
      rw [hsd, hr1, hr2, hr3, hr4, hr5, hr6, hr7, hr8]
      simp
    · exact absurd h (by decide)
  · rintro ⟨g1, g2, g3, g4, g5, hs, h1, h2, h3, h4, h5,
      hh1, hh2, hh3, hh4, hh5⟩
    have e1 : matchHex 8 (g1 ++ '-' :: (g2 ++ '-' :: (g3 ++ '-' :: (g4 ++ '-' :: g5))))
        = some ('-' :: (g2 ++ '-' :: (g3 ++ '-' :: (g4 ++ '-' :: g5)))) :=
      (matchHex_eq_some_iff _ _ _).mpr ⟨g1, rfl, h1, hh1⟩
    have e2 : matchHex 4 (g2 ++ '-' :: (g3 ++ '-' :: (g4 ++ '-' :: g5)))
        = some ('-' :: (g3 ++ '-' :: (g4 ++ '-' :: g5))) :=
      (matchHex_eq_some_iff _ _ _).mpr ⟨g2, rfl, h2, hh2⟩
    have e3 : matchHex 4 (g3 ++ '-' :: (g4 ++ '-' :: g5))
        = some ('-' :: (g4 ++ '-' :: g5)) :=
      (matchHex_eq_some_iff _ _ _).mpr ⟨g3, rfl, h3, hh3⟩
    have e4 : matchHex 4 (g4 ++ '-' :: g5) = some ('-' :: g5) :=
      (matchHex_eq_some_iff _ _ _).mpr ⟨g4, rfl, h4, hh4⟩
    have e5 : matchHex 12 g5 = some [] :=
      (matchHex_eq_some_iff _ _ _).mpr ⟨g5, (List.append_nil g5).symm, h5, hh5⟩
    rw [hs, e1]
    rw [Option.some_bind]
    have d1 : matchDash ('-' :: (g2 ++ '-' :: (g3 ++ '-' :: (g4 ++ '-' :: g5))))
        = some (g2 ++ '-' :: (g3 ++ '-' :: (g4 ++ '-' :: g5))) := rfl
    rw [d1, Option.some_bind, e2, Option.some_bind]
    have d2 : matchDash ('-' :: (g3 ++ '-' :: (g4 ++ '-' :: g5)))
        = some (g3 ++ '-' :: (g4 ++ '-' :: g5)) := rfl
    rw [d2, Option.some_bind, e3, Option.some_bind]
    have d3 : matchDash ('-' :: (g4 ++ '-' :: g5)) = some (g4 ++ '-' :: g5) := rfl
    rw [d3, Option.some_bind, e4, Option.some_bind]
    have d4 : matchDash ('-' :: g5) = some g5 := rfl
    rw [d4, Option.some_bind, e5]

/-! ## The email block tree and `validateEmailStructure` -/

/-- A block of the nested content tree: `{ id, definition, children }`.
A missing `definition` is `none` (JavaScript `undefined`); a missing
`children` field behaves like `[]` (both skip the `forEach`). -/
inductive Block : Type where
  | mk (id : String) (definition : Option String) (children : List Block)
deriving Repr

def Block.id : Block → String
  | .mk i _ _ => i

def Block.definition : Block → Option String
  | .mk _ d _ => d

def Block.children : Block → List Block
  | .mk _ _ c => c

/-- JavaScript falsiness of an optional string field: absent or empty. -/
def optStrFalsy : Option String → Bool
  | none => true
  | some s => s == ""

/-- String interpolation of a possibly-`undefined` value. -/
def showDef : Option String → String
  | none => "undefined"
  | some s => s

/-- The `contentBody` argument of the validator: the fields it reads. -/
structure ContentBody where
  subjectLine : Option String
  block : Option Block

structure ValidationResult where
  valid : Bool
  errors : List String
  warnings : List String
deriving Repr

mutual
/-- The recursive `validateBlock(block, path)` walk: an invalid-UUID message,
then a missing-definition message, then the children in order. -/
def validateBlock : Block → String → List String
  | .mk i d cs, path =>
    (if validateUUID i then []
      else ["❌ Invalid UUID at " ++ path ++ ": \"" ++ i ++ "\""])
      ++ (if optStrFalsy d then ["❌ Missing definition at " ++ path] else [])
      ++ validateBlockList cs path 0

def validateBlockList : List Block → String → Nat → List String
  | [], _, _ => []
  | b :: bs, path, i =>
      validateBlock b (path ++ ".children[" ++ toString i ++ "]")
        ++ validateBlockList bs path (i + 1)
end

/-- The column half of the hierarchy check: every child of a
`lightning/section` block must be a `lightning/column`. -/
def columnErrors : List Block → Nat → Nat → List String
  | [], _, _ => []
  | c :: rest, si, ci =>
    (if c.definition = some "lightning/column" then []
      else ["❌ Child of section must be lightning/column, got \""
        ++ showDef c.definition ++ "\" at section[" ++ toString si
        ++ "].column[" ++ toString ci ++ "]"])
      ++ columnErrors rest si (ci + 1)

/-- The section half of the hierarchy check: every direct child of the root
must be a `lightning/section`; only then are its children column-checked. -/
def sectionErrors : List Block → Nat → List String
  | [], _ => []
  | s :: rest, si =>
    (if s.definition = some "lightning/section"
      then columnErrors s.children si 0
      else ["❌ Direct child of root must be lightning/section, got \""
        ++ showDef s.definition ++ "\" at index " ++ toString si])
      ++ sectionErrors rest (si + 1)

/-- The error list accumulated for a present root block: root definition
check, root UUID check, the recursive walk, then the hierarchy pass, in
the push order of the source. -/
def emailErrors (root : Block) : List String :=
  (if root.definition = some "sfdc_cms/rootContentBlock" then []
    else ["❌ Root block must be \"sfdc_cms/rootContentBlock\", got \""
      ++ showDef root.definition ++ "\""])
    ++ (if validateUUID root.id then []
      else ["❌ Root block ID is not a valid UUID: \"" ++ root.id ++ "\""])
    ++ validateBlock root "root"
    ++ sectionErrors root.children 0

/-- `validateEmailStructure(contentBody)` from index.js: subject-line warning,
missing-block early return, root definition and root UUID checks, the
recursive walk, then the hierarchy pass; `valid` iff no error was pushed. -/
def validateEmailStructure (cb : ContentBody) : ValidationResult :=
  let warnings := if optStrFalsy cb.subjectLine
    then ["⚠️ Missing subjectLine - email will have no subject"] else []
  match cb.block with
  | none =>
    { valid := false
      errors := ["❌ Missing sfdc_cms:block - this is required for email structure"]
      warnings := warnings }
  | some root =>
    { valid := (emailErrors root).isEmpty
      errors := emailErrors root
      warnings := warnings }

/-! ### The independent count of structural violations

One unit per violated rule instance, following the spec's list of rules:
invalid UUID at a node, missing definition at a node, wrong root
definition, non-section direct child of the root, non-column child of a
section. -/

mutual
def nodeViolations : Block → Nat
  | .mk i d cs =>
    (if validateUUID i then 0 else 1) + (if optStrFalsy d then 1 else 0)
      + nodeViolationsList cs

def nodeViolationsList : List Block → Nat
  | [] => 0
  | b :: bs => nodeViolations b + nodeViolationsList bs
end

def columnViolations : List Block → Nat
  | [] => 0
  | c :: rest =>
    (if c.definition = some "lightning/column" then 0 else 1)
      + columnViolations rest

def sectionViolations : List Block → Nat
  | [] => 0
  | s :: rest =>
    (if s.definition = some "lightning/section"
      then columnViolations s.children else 1)
      + sectionViolations rest

/-- The number of independent structural violations in a validation input. -/
def specViolations (cb : ContentBody) : Nat :=
  match cb.block with
  | none => 1
  | some root =>
    (if root.definition = some "sfdc_cms/rootContentBlock" then 0 else 1)
      + nodeViolations root + sectionViolations root.children

mutual
theorem validateBlock_length (b : Block) (path : String) :
    (validateBlock b path).length = nodeViolations b := by
  cases b with
  | mk i d cs =>
    simp only [validateBlock, nodeViolations, List.length_append,
      validateBlockList_length cs path 0]
    cases validateUUID i <;> cases optStrFalsy d <;> simp

theorem validateBlockList_length (bs : List Block) (path : String) (i : Nat) :
    (validateBlockList bs path i).length = nodeViolationsList bs := by
  cases bs with
  | nil => simp [validateBlockList, nodeViolationsList]
  | cons b bs =>
    simp only [validateBlockList, nodeViolationsList, List.length_append,
      validateBlock_length b _, validateBlockList_length bs path (i + 1)]
end

theorem columnErrors_length (cs : List Block) (si ci : Nat) :
    (columnErrors cs si ci).length = columnViolations cs := by
  induction cs generalizing ci with
  | nil => simp [columnErrors, columnViolations]
  | cons c rest ih =>
    by_cases h : c.definition = some "lightning/column"
    · simp [columnErrors, columnViolations, h, ih]
    · simp [columnErrors, columnViolations, h, ih]
      omega

theorem sectionErrors_length (ss : List Block) (si : Nat) :
    (sectionErrors ss si).length = sectionViolations ss := by
  induction ss generalizing si with
  | nil => simp [sectionErrors, sectionViolations]
  | cons s rest ih =>
    by_cases h : s.definition = some "lightning/section"
    · simp [sectionErrors, sectionViolations, h, ih, columnErrors_length]
    · simp [sectionErrors, sectionViolations, h, ih]
      omega

theorem rootUUID_le_nodeViolations (b : Block) :
    (if validateUUID b.id then 0 else 1) ≤ nodeViolations b := by
  cases b with
  | mk i d cs =>
    simp only [Block.id, nodeViolations]
    omega

/-- The duplicate report: an invalid root UUID is pushed once by the root
check and once more by the recursive walk at path `root`. -/
def rootUuidExtra (cb : ContentBody) : Nat :=
  match cb.block with
  | none => 0
  | some root => if validateUUID root.id then 0 else 1

/-- C3 (amended): the validator reports one message per structural violation
and never stops at the first one, except that an invalid root-block UUID is
reported twice (once by the dedicated root check, once by the recursive
walk); `valid` is `true` exactly when the tree has no violations. -/
theorem validateEmailStructure_count (cb : ContentBody) :
    (validateEmailStructure cb).errors.length
      = specViolations cb + rootUuidExtra cb
    ∧ ((validateEmailStructure cb).valid = true ↔ specViolations cb = 0) := by
  obtain ⟨sl, blk⟩ := cb
  cases blk with
  | none =>
    refine ⟨rfl, ?_⟩
    have hv : (validateEmailStructure ⟨sl, none⟩).valid = false := rfl
    have hs : specViolations ⟨sl, none⟩ = 1 := rfl
    rw [hv, hs]
    simp
  | some root =>
    have hv := validateBlock_length root "root"
    have hsec := sectionErrors_length root.children 0
    have hle := rootUUID_le_nodeViolations root
    have herr : (validateEmailStructure ⟨sl, some root⟩).errors
        = emailErrors root := rfl
    have hval : (validateEmailStructure ⟨sl, some root⟩).valid
        = (emailErrors root).isEmpty := rfl
    have hspec : specViolations ⟨sl, some root⟩
        = (if root.definition = some "sfdc_cms/rootContentBlock" then 0 else 1)
          + nodeViolations root + sectionViolations root.children := rfl
    have hextra : rootUuidExtra ⟨sl, some root⟩
        = (if validateUUID root.id then 0 else 1) := rfl
    have hlen : (emailErrors root).length
        = (if root.definition = some "sfdc_cms/rootContentBlock" then 0 else 1)
          + (if validateUUID root.id then 0 else 1)
          + nodeViolations root + sectionViolations root.children := by
      simp only [emailErrors, List.length_append, hv, hsec]
      by_cases h1 : root.definition = some "sfdc_cms/rootContentBlock" <;>
        by_cases h2 : validateUUID root.id <;> simp [h1, h2]
    constructor
    · rw [herr, hlen, hspec, hextra]
      omega
    · rw [hval, hspec]
      rw [List.isEmpty_iff, ← List.length_eq_zero, hlen]
      omega

/-- A content body whose tree has exactly one structural violation, an
invalid root-block UUID. -/
def oneViolationBody : ContentBody :=
  ⟨some "Subject", some (.mk "bad" (some "sfdc_cms/rootContentBlock") [])⟩

/-- C3 counterexample: a tree with exactly one independent structural
violation for which the validator returns two violation messages, not one. -/
theorem validator_count_counterexample :
    specViolations oneViolationBody = 1
    ∧ (validateEmailStructure oneViolationBody).errors.length = 2 := ⟨rfl, rfl⟩

/-- Witness instantiating the amended message-count theorem. -/
theorem validateEmailStructure_count_witness :
    (validateEmailStructure oneViolationBody).errors.length
      = specViolations oneViolationBody + rootUuidExtra oneViolationBody :=
  (validateEmailStructure_count oneViolationBody).1

/-- Scenario A input: the root block `{id: "not-a-uuid",
definition: "sfdc_cms/rootContentBlock", children: []}` supplied as the
`sfdc_cms:block` of the content body. -/
def scenarioABody : ContentBody :=
  ⟨none, some (.mk "not-a-uuid" (some "sfdc_cms/rootContentBlock") [])⟩

/-- C4 counterexample: on the Scenario A input the validator does return
`valid = false`, but with two violation messages, not exactly one. -/
theorem scenarioA_not_one_message :
    (validateEmailStructure scenarioABody).valid = false
    ∧ (validateEmailStructure scenarioABody).errors.length ≠ 1 := by
  exact ⟨rfl, by decide⟩

/-- C4 (amended): on the Scenario A input the validator returns
`valid = false` with exactly two violation messages, both citing the
invalid UUID of the root node. -/
theorem scenarioA_two_root_uuid_messages :
    (validateEmailStructure scenarioABody).valid = false
    ∧ (validateEmailStructure scenarioABody).errors
      = ["❌ Root block ID is not a valid UUID: \"not-a-uuid\"",
         "❌ Invalid UUID at root: \"not-a-uuid\""] := ⟨rfl, rfl⟩

/-! ## The clearance-token workflow

The registry is the process-global `clearanceTokens` set of strings.
`generateClearanceToken` adds a fresh `CMS-CLEARANCE-...` string and
schedules a `setTimeout` that deletes it after 30 minutes; the
`create_cms_content` tool handler checks and consumes it for the email
content type. The remote client is abstracted as a state `σ` together
with a call `σ → Bool × σ` (did the HTTP create succeed, and the
client's state afterwards). -/

/-- JavaScript falsiness of the `clearance_token` argument. -/
def tokenFalsy : Option String → Bool
  | none => true
  | some t => t == ""

/-- Which branch of the `create_cms_content` handler produced the result. -/
inductive ResKind where
  | clearanceRequired
  | clearanceInvalid
  | created
  | remoteFailed
deriving DecidableEq, Repr

/-- Outcome of one `create_cms_content` tool call: the result flag and
branch, whether the HTTP create request was issued, and the registry and
client state afterwards. -/
structure GateOutcome (σ : Type) where
  kind : ResKind
  isError : Bool
  httpCalled : Bool
  tokens : List String
  client : σ

/-- The `create_cms_content` tool handler: for `args.type ===
'sfdc_cms__email'`, a missing token or an unregistered token is rejected
with an error-flagged result before any remote call; a registered token is
deleted from the registry (single use) and only then is
`cmsClient.createContent` awaited, whose failure surfaces through the
surrounding catch as an error-flagged result. Any other content type goes
straight to the remote call. -/
def create_cms_content {σ : Type} (toks : List String) (client : σ)
    (argType : String) (clearance : Option String)
    (remote : σ → Bool × σ) : GateOutcome σ :=
  if argType = "sfdc_cms__email" then
    if tokenFalsy clearance then
      ⟨.clearanceRequired, true, false, toks, client⟩
    else
      let t := clearance.getD ""
      if toks.contains t then
        let toks1 := toks.erase t
        let r := remote client
        if r.1 then ⟨.created, false, true, toks1, r.2⟩
        else ⟨.remoteFailed, true, true, toks1, r.2⟩
      else ⟨.clearanceInvalid, true, false, toks, client⟩
  else
    let r := remote client
    if r.1 then ⟨.created, false, true, toks, r.2⟩
    else ⟨.remoteFailed, true, true, toks, r.2⟩

/-- `clearanceTokens.has(token)`: a token is valid iff currently registered. -/
def checkToken (toks : List String) (t : String) : Bool := toks.contains t

/-- `clearanceTokens.add(token)` (set semantics: no duplicate entry). -/
def addToken (toks : List String) (t : String) : List String :=
  if toks.contains t then toks else t :: toks

/-- The 30-minute validity window of `generateClearanceToken`, in ms. -/
def tokenValidityMs : Nat := 30 * 60 * 1000

/-- Registry-plus-timers state: the `clearanceTokens` set together with the
pending `setTimeout` eviction deadlines. -/
structure TokenSys where
  registry : List String
  timers : List (String × Nat)

/-- Events touching the registry: a preflight issue at a given time, the
passage of time to `now` (firing every due eviction timer), and a
`create_cms_content` tool call. -/
inductive TokenEv where
  | issue (t : String) (now : Nat)
  | advance (now : Nat)
  | gated (argType : String) (clearance : Option String) (remoteOk : Bool)

/-- One step of the registry state machine. -/
def stepSys (sys : TokenSys) (e : TokenEv) : TokenSys :=
  match e with
  | .issue t now =>
    ⟨addToken sys.registry t, (t, now + tokenValidityMs) :: sys.timers⟩
  | .advance now =>
    ⟨sys.registry.filter
        (fun tk => ! sys.timers.any (fun p => p.1 == tk && decide (p.2 ≤ now))),
      sys.timers.filter (fun p => decide (now < p.2))⟩
  | .gated ty cl ok =>
    { sys with
      registry :=
        (create_cms_content sys.registry () ty cl (fun _ => (ok, ()))).tokens }

theorem checkToken_false_iff (toks : List String) (t : String) :
    checkToken toks t = false ↔ t ∉ toks := by
  unfold checkToken
  rw [← Bool.not_eq_true]
  exact not_congr List.elem_iff

theorem tokenFalsy_some {t : String} (h : t ≠ "") :
    tokenFalsy (some t) = false := by
  simp [tokenFalsy, h]

theorem mem_addToken (toks : List String) (s t : String) :
    t ∈ addToken toks s ↔ t = s ∨ t ∈ toks := by
  unfold addToken
  by_cases h : toks.contains s = true
  · rw [if_pos h]
    constructor
    · exact fun hm => Or.inr hm
    · rintro (rfl | hm)
      · exact List.elem_iff.mp h
      · exact hm
  · rw [if_neg h]
    exact List.mem_cons

theorem addToken_nodup {toks : List String} (h : toks.Nodup) (t : String) :
    (addToken toks t).Nodup := by
  unfold addToken
  by_cases hc : toks.contains t = true
  · rw [if_pos hc]; exact h
  · rw [if_neg hc]
    exact List.nodup_cons.mpr ⟨fun hm => hc (List.elem_iff.mpr hm), h⟩

theorem contains_erase_self {toks : List String} (h : toks.Nodup)
    (t : String) : checkToken (toks.erase t) t = false :=
  (checkToken_false_iff _ _).mpr (fun hm => (h.mem_erase_iff.mp hm).1 rfl)

theorem create_tokens_cases {σ : Type} (toks : List String) (client : σ)
    (ty : String) (cl : Option String) (remote : σ → Bool × σ) :
    (create_cms_content toks client ty cl remote).tokens = toks
    ∨ (create_cms_content toks client ty cl remote).tokens
        = toks.erase (cl.getD "") := by
  by_cases h1 : ty = "sfdc_cms__email"
  · by_cases h2 : tokenFalsy cl = true
    · left; simp [create_cms_content, h1, h2]
    · by_cases h3 : cl.getD "" ∈ toks
      · right
        cases hr : (remote client).1 <;>
          simp [create_cms_content, h1, h2, h3, hr]
      · left; simp [create_cms_content, h1, h2, h3]
  · left
    cases hr : (remote client).1 <;> simp [create_cms_content, h1, hr]

theorem gate_preserves_absent {σ : Type} (toks : List String) (client : σ)
    (ty : String) (cl : Option String) (remote : σ → Bool × σ) (t : String)
    (h : checkToken toks t = false) :
    checkToken (create_cms_content toks client ty cl remote).tokens t
      = false := by
  rcases create_tokens_cases toks client ty cl remote with hc | hc <;> rw [hc]
  · exact h
  · exact (checkToken_false_iff _ _).mpr
      (fun hm => (checkToken_false_iff _ _).mp h (List.mem_of_mem_erase hm))

theorem stepSys_preserves_absent (sys : TokenSys) (e : TokenEv) (t : String)
    (h : checkToken sys.registry t = false)
    (hne : ∀ now', e ≠ TokenEv.issue t now') :
    checkToken (stepSys sys e).registry t = false := by
  cases e with
  | issue s n =>
    have hst : t ≠ s := by
      rintro rfl
      exact (hne n) rfl
    rw [checkToken_false_iff] at h ⊢
    simp only [stepSys]
    rw [mem_addToken]
    rintro (rfl | hm)
    · exact hst rfl
    · exact h hm
  | advance n =>
    rw [checkToken_false_iff] at h ⊢
    simp only [stepSys]
    intro hm
    exact h (List.mem_filter.mp hm).1
  | gated ty cl ok =>
    simp only [stepSys]
    exact gate_preserves_absent _ _ _ _ _ _ h

theorem gate_consumes {σ : Type} (toks : List String) (client : σ)
    (t : String) (remote : σ → Bool × σ) (ht : t ≠ "") (hmem : t ∈ toks) :
    (create_cms_content toks client "sfdc_cms__email" (some t) remote).tokens
      = toks.erase t := by
  cases hr : (remote client).1 <;>
    simp [create_cms_content, tokenFalsy_some ht, hmem, hr]

/-- C1: a clearance token is valid immediately after issue; invalid
immediately after one gated email create that used it; invalid after the
30-minute validity window elapses unused; and once absent from the
registry it stays invalid under any sequence of events that never issues
the same string again (issued tokens embed a timestamp and a random
suffix, so re-issue of an old string does not occur). -/
theorem clearance_token_lifecycle (sys : TokenSys) (t : String) (now : Nat)
    (hnd : sys.registry.Nodup) (ht : t ≠ "") :
    checkToken (stepSys sys (.issue t now)).registry t = true
    ∧ (∀ ok : Bool,
        checkToken (stepSys (stepSys sys (.issue t now))
          (.gated "sfdc_cms__email" (some t) ok)).registry t = false)
    ∧ checkToken (stepSys (stepSys sys (.issue t now))
        (.advance (now + tokenValidityMs))).registry t = false
    ∧ (∀ (sys' : TokenSys) (evs : List TokenEv),
        checkToken sys'.registry t = false →
        (∀ e ∈ evs, ∀ now', e ≠ TokenEv.issue t now') →
        checkToken (evs.foldl stepSys sys').registry t = false) := by
  have hmemA : t ∈ (stepSys sys (.issue t now)).registry :=
    (mem_addToken _ _ _).mpr (Or.inl rfl)
  refine ⟨List.elem_iff.mpr hmemA, ?_, ?_, ?_⟩
  · intro ok
    have hstep : (stepSys (stepSys sys (.issue t now))
        (.gated "sfdc_cms__email" (some t) ok)).registry
        = (addToken sys.registry t).erase t :=
      gate_consumes _ _ _ _ ht hmemA
    rw [hstep]
    exact contains_erase_self (addToken_nodup hnd t) t
  · rw [checkToken_false_iff]
    intro hm
    have h2 := (List.mem_filter.mp hm).2
    simp at h2
    have hhead : (t, now + tokenValidityMs)
        ∈ (stepSys sys (TokenEv.issue t now)).timers :=
      List.mem_cons_self _ _
    exact absurd (h2 t (now + tokenValidityMs) hhead rfl) (by omega)
  · intro sys' evs
    induction evs generalizing sys' with
    | nil => exact fun h _ => h
    | cons e evs ih =>
      intro h hne
      simp only [List.foldl_cons]
      exact ih (stepSys sys' e)
        (stepSys_preserves_absent sys' e t h (hne e (List.mem_cons_self e evs)))
        (fun e' he' => hne e' (List.mem_cons_of_mem e he'))

/-- Witness: a freshly issued token checks as valid. -/
theorem clearance_token_lifecycle_witness :
    checkToken (stepSys ⟨[], []⟩
      (.issue "CMS-CLEARANCE-1-abcd1234" 0)).registry
      "CMS-CLEARANCE-1-abcd1234" = true :=
  (clearance_token_lifecycle ⟨[], []⟩ "CMS-CLEARANCE-1-abcd1234" 0
    List.nodup_nil (by decide)).1

/-- C2: an email-type create whose clearance token is missing or not in
the registry is rejected with an error-flagged clearance result, no HTTP
create call is issued, and the registry and client state are unchanged. -/
theorem gatedCreate_rejects_absent_token {σ : Type} (toks : List String)
    (client : σ) (cl : Option String) (remote : σ → Bool × σ)
    (habs : ∀ s, cl = some s → s ∉ toks) :
    (create_cms_content toks client "sfdc_cms__email" cl remote).isError = true
    ∧ (create_cms_content toks client "sfdc_cms__email" cl remote).httpCalled
        = false
    ∧ (create_cms_content toks client "sfdc_cms__email" cl remote).tokens = toks
    ∧ (create_cms_content toks client "sfdc_cms__email" cl remote).client
        = client
    ∧ ((create_cms_content toks client "sfdc_cms__email" cl remote).kind
          = ResKind.clearanceRequired
        ∨ (create_cms_content toks client "sfdc_cms__email" cl remote).kind
          = ResKind.clearanceInvalid) := by
  cases cl with
  | none => simp [create_cms_content, tokenFalsy]
  | some s =>
    by_cases hs : s = ""
    · subst hs; simp [create_cms_content, tokenFalsy]
    · have hm : s ∉ toks := habs s rfl
      simp [create_cms_content, tokenFalsy_some hs, hm]

/-- Witness: a never-issued token is rejected on an empty registry. -/
theorem gatedCreate_rejects_absent_token_witness :
    (create_cms_content ([] : List String) (0 : Nat) "sfdc_cms__email"
      (some "CMS-CLEARANCE-2-feedface") (fun n => (true, n))).isError
      = true :=
  (gatedCreate_rejects_absent_token [] 0 (some "CMS-CLEARANCE-2-feedface")
    (fun n => (true, n)) (fun s _ => List.not_mem_nil s)).1

/-- C5: the clearance gate is applied iff the request's content type is
`sfdc_cms__email`: any other type goes straight to the remote call with
the registry untouched and never produces a clearance rejection, while an
email-type create reaches the remote call exactly when a registered token
was supplied, which is then consumed. -/
theorem gate_applies_iff_email_type {σ : Type} (toks : List String)
    (client : σ) (ty : String) (cl : Option String)
    (remote : σ → Bool × σ) :
    (ty ≠ "sfdc_cms__email" →
      (create_cms_content toks client ty cl remote).httpCalled = true
      ∧ (create_cms_content toks client ty cl remote).tokens = toks
      ∧ (create_cms_content toks client ty cl remote).kind
          ≠ ResKind.clearanceRequired
      ∧ (create_cms_content toks client ty cl remote).kind
          ≠ ResKind.clearanceInvalid)
    ∧ ((create_cms_content toks client "sfdc_cms__email" cl remote).httpCalled
          = true
        ↔ ∃ s, cl = some s ∧ s ≠ "" ∧ s ∈ toks)
    ∧ (∀ s, cl = some s → s ≠ "" → s ∈ toks →
        (create_cms_content toks client "sfdc_cms__email" cl remote).tokens
          = toks.erase s) := by
  refine ⟨?_, ?_, ?_⟩
  · intro hne
    cases hr : (remote client).1 <;>
      simp [create_cms_content, hne, hr]
  · cases cl with
    | none => simp [create_cms_content, tokenFalsy]
    | some s =>
      by_cases hs : s = ""
      · subst hs; simp [create_cms_content, tokenFalsy]
      · by_cases hm : s ∈ toks
        · cases hr : (remote client).1 <;>
            simp [create_cms_content, tokenFalsy_some hs, hm, hs, hr]
        · simp [create_cms_content, tokenFalsy_some hs, hm, hs]
  · intro s hcl hs hm
    subst hcl
    exact gate_consumes toks client s remote hs hm

/-- Witness: a non-email create proceeds with no token check. -/
theorem gate_applies_iff_email_type_witness :
    (create_cms_content ([] : List String) (0 : Nat) "news" none
      (fun n => (true, n))).httpCalled = true :=
  ((gate_applies_iff_email_type [] 0 "news" none (fun n => (true, n))).1
    (by decide)).1

/-- C10: with a valid token and a failing remote create, the handler
returns an error-flagged result, the HTTP call was issued, yet the token
stays consumed (the registry holds the erased list and the token checks
invalid), and a retry with the same token is rejected as invalid without
another HTTP call. -/
theorem gatedCreate_not_atomic_on_remote_failure {σ : Type}
    (toks : List String) (client : σ) (t : String)
    (remote : σ → Bool × σ) (hnd : toks.Nodup) (ht : t ≠ "")
    (hmem : t ∈ toks) (hfail : (remote client).1 = false) :
    (create_cms_content toks client "sfdc_cms__email" (some t) remote).httpCalled
        = true
    ∧ (create_cms_content toks client "sfdc_cms__email" (some t) remote).isError
        = true
    ∧ (create_cms_content toks client "sfdc_cms__email" (some t) remote).kind
        = ResKind.remoteFailed
    ∧ (create_cms_content toks client "sfdc_cms__email" (some t) remote).tokens
        = toks.erase t
    ∧ checkToken
        (create_cms_content toks client "sfdc_cms__email" (some t) remote).tokens
        t = false
    ∧ (∀ (client2 : σ) (remote2 : σ → Bool × σ),
        (create_cms_content
            (create_cms_content toks client "sfdc_cms__email" (some t) remote).tokens
            client2 "sfdc_cms__email" (some t) remote2).kind
          = ResKind.clearanceInvalid
        ∧ (create_cms_content
            (create_cms_content toks client "sfdc_cms__email" (some t) remote).tokens
            client2 "sfdc_cms__email" (some t) remote2).httpCalled = false) := by
  have htoks := gate_consumes toks client t remote ht hmem
  have hnotmem : t ∉ toks.erase t := fun hm => (hnd.mem_erase_iff.mp hm).1 rfl
  refine ⟨?_, ?_, ?_, htoks, ?_, ?_⟩
  · simp [create_cms_content, tokenFalsy_some ht, hmem, hfail]
  · simp [create_cms_content, tokenFalsy_some ht, hmem, hfail]
  · simp [create_cms_content, tokenFalsy_some ht, hmem, hfail]
  · rw [htoks]
    exact contains_erase_self hnd t
  · intro client2 remote2
    rw [htoks]
    constructor <;> simp [create_cms_content, tokenFalsy_some ht, hnotmem]

/-- Witness: a consumed token is gone after a failing remote create. -/
theorem gatedCreate_not_atomic_witness :
    (create_cms_content ["CMS-CLEARANCE-3-cafe0000"] (0 : Nat)
      "sfdc_cms__email" (some "CMS-CLEARANCE-3-cafe0000")
      (fun n => (false, n))).tokens = [] := by
  have h := gatedCreate_not_atomic_on_remote_failure
    ["CMS-CLEARANCE-3-cafe0000"] (0 : Nat) "CMS-CLEARANCE-3-cafe0000"
    (fun n => (false, n)) (by simp) (by decide) (by simp) rfl
  simpa using h.2.2.2.1

/-! ## Session refresh (cms-client.js, the `tokenExpiry` version)

`authenticate()` stores `access_token` and `tokenExpiry = Date.now() +
3600 * 1000`; `ensureAuthenticated()` re-invokes it iff
`!this.accessToken || !this.tokenExpiry ||
Date.now() >= this.tokenExpiry - 60000`. Time is in ms; the JavaScript
subtraction can go negative where Nat subtraction truncates at zero, but
`now ≥ 0` makes the comparison agree in that corner. -/

structure CmsClientState where
  accessToken : Option String
  tokenExpiry : Option Nat
  workspaceId : Option String
  channelId : Option String
deriving Repr, DecidableEq

/-- The constructor state: `accessToken`, `tokenExpiry`, `workspaceId` and
`channelId` all `null`. -/
def initialClientState : CmsClientState := ⟨none, none, none, none⟩

/-- The environment of a successful token exchange: the bearer token the
provider returns. -/
structure AuthEnv where
  newToken : String

/-- The session fields written by a successful `authenticate()` exchange:
the bearer token and an expiry fixed at one hour from now (workspace and
channel resolution is modelled separately by `getWorkspaceId`). -/
def authenticate (env : AuthEnv) (now : Nat) (st : CmsClientState) :
    CmsClientState :=
  { st with accessToken := some env.newToken
            tokenExpiry := some (now + 3600 * 1000) }

/-- JavaScript falsiness of an optional number field: absent or zero. -/
def natFalsy : Option Nat → Bool
  | none => true
  | some n => n == 0

/-- The refresh condition of `ensureAuthenticated()`. -/
def needsAuth (st : CmsClientState) (now : Nat) : Bool :=
  tokenFalsy st.accessToken || natFalsy st.tokenExpiry
    || decide (now ≥ st.tokenExpiry.getD 0 - 60000)

/-- `ensureAuthenticated()`: re-authenticate when the refresh condition
holds, otherwise a no-op; the Boolean records whether a token exchange
was performed. -/
def ensureAuthenticated (env : AuthEnv) (now : Nat) (st : CmsClientState) :
    CmsClientState × Bool :=
  if needsAuth st now then (authenticate env now st, true) else (st, false)

theorem needsAuth_after_authenticate (env : AuthEnv) (now : Nat)
    (st : CmsClientState) (henv : env.newToken ≠ "") :
    needsAuth (authenticate env now st) now = false := by
  simp [needsAuth, authenticate, tokenFalsy, natFalsy, henv]

/-- C6: `ensureAuthenticated()` performs a token exchange exactly when no
(truthy) access token is held, no (truthy) expiry is recorded, or the
current time is at or past the recorded expiry minus the 60-second safety
margin; an immediate second call never performs another exchange, so two
calls in a row from the unauthenticated initial state perform exactly one
token exchange. -/
theorem ensureAuthenticated_refresh_iff (env : AuthEnv) (now : Nat)
    (st : CmsClientState) (henv : env.newToken ≠ "") :
    ((ensureAuthenticated env now st).2 = true
      ↔ (st.accessToken = none ∨ st.accessToken = some ""
          ∨ st.tokenExpiry = none ∨ st.tokenExpiry = some 0
          ∨ now ≥ st.tokenExpiry.getD 0 - 60000))
    ∧ (ensureAuthenticated env now
        (ensureAuthenticated env now st).1).2 = false
    ∧ (ensureAuthenticated env now initialClientState).2 = true := by
  have hsnd : ∀ s : CmsClientState,
      (ensureAuthenticated env now s).2 = needsAuth s now := by
    intro s
    unfold ensureAuthenticated
    by_cases h : needsAuth s now = true <;> simp [h]
  refine ⟨?_, ?_, ?_⟩
  · rw [hsnd]
    obtain ⟨a, e, w, c⟩ := st
    cases a <;> cases e
    · simp [needsAuth, tokenFalsy, natFalsy, beq_iff_eq]
    · simp [needsAuth, tokenFalsy, natFalsy, beq_iff_eq]
    · simp [needsAuth, tokenFalsy, natFalsy, beq_iff_eq]
    · simp [needsAuth, tokenFalsy, natFalsy, beq_iff_eq]
      tauto
  · by_cases hN : needsAuth st now = true
    · have h1 : ensureAuthenticated env now st = (authenticate env now st, true) := by
        simp [ensureAuthenticated, hN]
      rw [h1]
      simp [ensureAuthenticated, needsAuth_after_authenticate env now st henv]
    · have h1 : ensureAuthenticated env now st = (st, false) := by
        simp [ensureAuthenticated, hN]
      rw [h1]
      simp [ensureAuthenticated, hN]
  · simp [ensureAuthenticated, needsAuth, initialClientState, tokenFalsy]

/-- Witness: the first call from the fresh state does exchange a token. -/
theorem ensureAuthenticated_refresh_iff_witness :
    (ensureAuthenticated ⟨"00Dtoken"⟩ 0 initialClientState).2 = true :=
  (ensureAuthenticated_refresh_iff ⟨"00Dtoken"⟩ 0 initialClientState
    (by decide)).2.2

/-! ## `getContent` key resolution

The repository carries two generations of the client. The first-generation
`getContent` treats a non-`0`-prefixed identifier as a content key and
resolves it through the search endpoint before the detail fetch; the
Enhanced-CMS `getContent` hands the identifier to the detail endpoint
unchanged. Both are modelled by the identifier their final detail fetch
targets, parameterised by the search collaborator's response. -/

structure SearchItem where
  contentId : String

/-- `identifier.startsWith('0')`: does the first character equal `0`? -/
def startsWithZero (s : String) : Bool :=
  match s.data with
  | [] => false
  | c :: _ => c == '0'

/-- Outcome of the key-lookup search request: a thrown error, or the
`response.data.items` list (an absent `items` field behaves like `[]`:
both skip the substitution). -/
inductive KeySearch where
  | err
  | ok (items : List SearchItem)

/-- First-generation `getContent`: identifiers not starting with `0` are
first looked up as content keys; on a successful search with at least one
item the detail fetch targets `items[0].contentId`, otherwise the literal
input. -/
def getContentFetchTargetV1 (identifier : String) (search : KeySearch) :
    String :=
  if startsWithZero identifier then identifier
  else
    match search with
    | .ok (it :: _) => it.contentId
    | _ => identifier

/-- Enhanced-CMS `getContent`: the detail fetch always targets the literal
identifier; no key lookup is issued. -/
def getContentFetchTargetV2 (identifier : String) (_search : KeySearch) :
    String :=
  identifier

/-- C7 counterexample: for the Scenario C content key, even when the search
collaborator would resolve it to an internal id, the Enhanced-CMS
`getContent` fetches the literal key string, not the resolved id. -/
theorem getContentV2_ignores_resolved_key :
    getContentFetchTargetV2 "MCWV26UCUUYNAFNP3Y53CVWGE23E"
        (.ok [⟨"0apKJ0000000TYKKA2"⟩])
      = "MCWV26UCUUYNAFNP3Y53CVWGE23E"
    ∧ getContentFetchTargetV2 "MCWV26UCUUYNAFNP3Y53CVWGE23E"
        (.ok [⟨"0apKJ0000000TYKKA2"⟩]) ≠ "0apKJ0000000TYKKA2" :=
  ⟨rfl, by decide⟩

/-- C7 (amended): only the first-generation `getContent` resolves content
keys: for a non-`0`-prefixed identifier it fetches the first search item's
internal id when the lookup succeeds non-empty and the literal input when
the lookup fails or returns nothing, while the Enhanced-CMS `getContent`
always fetches the literal identifier. -/
theorem getContent_fetch_target (identifier : String)
    (items : List SearchItem)
    (hkey : startsWithZero identifier = false) :
    (∀ it rest, items = it :: rest →
        getContentFetchTargetV1 identifier (.ok items) = it.contentId)
    ∧ getContentFetchTargetV1 identifier .err = identifier
    ∧ getContentFetchTargetV1 identifier (.ok []) = identifier
    ∧ (∀ s : KeySearch, getContentFetchTargetV2 identifier s = identifier) := by
  refine ⟨?_, ?_, ?_, fun _ => rfl⟩
  · rintro it rest rfl
    simp [getContentFetchTargetV1, hkey]
  · simp [getContentFetchTargetV1, hkey]
  · simp [getContentFetchTargetV1, hkey]

/-- Witness: the Scenario C key resolves through the v1 search path. -/
theorem getContent_fetch_target_witness :
    getContentFetchTargetV1 "MCWV26UCUUYNAFNP3Y53CVWGE23E"
      (.ok [⟨"0apKJ0000000TYKKA2"⟩]) = "0apKJ0000000TYKKA2" :=
  (getContent_fetch_target "MCWV26UCUUYNAFNP3Y53CVWGE23E"
    [⟨"0apKJ0000000TYKKA2"⟩] (by decide)).1 ⟨"0apKJ0000000TYKKA2"⟩ [] rfl

/-! ## `getWorkspaceId` channel resolution (Enhanced-CMS client) -/

structure ChannelInfo where
  channelId : String
  managedContentSpaceId : String

/-- Outcome of `GET /connect/cms/delivery/channels`: a thrown request
error, or the `channels` list of the response (an absent `channels`
field behaves like `[]`: both take the workspace-id fallback). -/
inductive ChannelLookup where
  | err
  | ok (channels : List ChannelInfo)

/-- `getWorkspaceId()`: fails when no workspace name is configured or the
space query returns no record; otherwise stores the first record's id as
the workspace id and resolves the channel id: on a successful lookup with
a non-empty list, the first channel whose `managedContentSpaceId` matches
the workspace, or failing that the first channel of the list; on an empty
list or a thrown lookup, the workspace id itself. -/
def getWorkspaceId (workspaceName : Option String)
    (spaceRecords : List String) (lookup : ChannelLookup)
    (st : CmsClientState) : Except String CmsClientState :=
  if tokenFalsy workspaceName then
    .error "Workspace name not configured"
  else
    match spaceRecords with
    | [] =>
      .error ("Workspace '" ++ workspaceName.getD "" ++ "' not found")
    | wsId :: _ =>
      let chId :=
        match lookup with
        | .err => wsId
        | .ok [] => wsId
        | .ok (c :: cs) =>
          match (c :: cs).find?
              (fun ch => ch.managedContentSpaceId == wsId) with
          | some ch => ch.channelId
          | none => c.channelId
      .ok { st with workspaceId := some wsId, channelId := some chId }

/-- C8 counterexample: the channel lookup succeeds with one channel owned
by a different workspace; no channel matches the resolved workspace id,
yet the channel id becomes that first channel's id, not the workspace id
as the claim states. -/
theorem channel_fallback_counterexample :
    getWorkspaceId (some "Marketing") ["0ZuWS0000000001"]
        (.ok [⟨"0apCH0000000001", "0ZuOTHER0000001"⟩]) initialClientState
      = .ok { initialClientState with
              workspaceId := some "0ZuWS0000000001"
              channelId := some "0apCH0000000001" }
    ∧ (some "0apCH0000000001" : Option String) ≠ some "0ZuWS0000000001" :=
  ⟨rfl, by decide⟩

/-- C8 (amended): once the workspace id is resolved, a channel id is always
set: the first returned channel owned by the workspace when one exists,
else the first returned channel when the list is non-empty, else (no
channels, or a failed lookup) the workspace id itself. -/
theorem getWorkspaceId_channel_resolution (nameOpt : Option String)
    (spaceRecords : List String) (lookup : ChannelLookup)
    (st st' : CmsClientState)
    (hok : getWorkspaceId nameOpt spaceRecords lookup st = .ok st') :
    ∃ wsId rest, spaceRecords = wsId :: rest
      ∧ st'.workspaceId = some wsId
      ∧ st'.channelId.isSome = true
      ∧ (lookup = .err → st'.channelId = some wsId)
      ∧ (lookup = .ok [] → st'.channelId = some wsId)
      ∧ (∀ c cs, lookup = .ok (c :: cs) →
          ((∀ ch ∈ c :: cs, ch.managedContentSpaceId ≠ wsId) →
              st'.channelId = some c.channelId)
          ∧ (∀ ch, (c :: cs).find?
                (fun x => x.managedContentSpaceId == wsId) = some ch →
              st'.channelId = some ch.channelId)) := by
  unfold getWorkspaceId at hok
  by_cases hn : tokenFalsy nameOpt = true
  · rw [if_pos hn] at hok
    exact absurd hok (by simp)
  · rw [if_neg hn] at hok
    cases spaceRecords with
    | nil => exact absurd hok (by simp)
    | cons wsId rest =>
      simp only [Except.ok.injEq] at hok
      subst hok
      refine ⟨wsId, rest, rfl, rfl, ?_, ?_, ?_, ?_⟩
      · cases lookup with
        | err => rfl
        | ok channels => cases channels <;> rfl
      · rintro rfl; rfl
      · rintro rfl; rfl
      · rintro c cs rfl
        constructor
        · intro hnone
          have hfind : (c :: cs).find?
              (fun x => x.managedContentSpaceId == wsId) = none :=
            List.find?_eq_none.mpr
              (fun x hx => by simpa using hnone x hx)
          simp [hfind]
        · intro ch hfind
          simp [hfind]

/-- Witness: a matching channel resolves and leaves a channel id set. -/
theorem getWorkspaceId_channel_resolution_witness :
    ({ initialClientState with
        workspaceId := some "0Zu1", channelId := some "0ap1" }
      : CmsClientState).channelId.isSome = true := by
  obtain ⟨wsId, rest, heq, hws, hs, h4, h5, h6⟩ :=
    getWorkspaceId_channel_resolution (some "W") ["0Zu1"]
      (.ok [⟨"0ap1", "0Zu1"⟩]) initialClientState
      { initialClientState with
        workspaceId := some "0Zu1", channelId := some "0ap1" } rfl
  exact hs
